import Mathlib

/-!
Shallow embedding of the tic-tac-toe program (board representation, move
validation, win detection, input parsing and the turn loop) together with
proofs of its specified properties.

The board is a 3×3 grid of symbols.  Rust's fallible array indexing is
modelled with `Option`: `none` stands for an out-of-bounds panic.  Rust
strings are modelled as `List Char`.
-/

namespace TicTacToe

/-- Cell state (`Symbol` in board.rs, `BoardSymbol` in main.rs). -/
inductive Symbol where
  | Empty
  | Plus
  | Circle
deriving DecidableEq, Repr

/-- Error type of `Board::is_valid_move` in board.rs. -/
inductive PlayerMoveError where
  | FilledPosition (msg : String)
  | OutsideBoard (msg : String)
deriving DecidableEq, Repr

/-- Error type of the free functions in main.rs. -/
inductive MainPlayerMoveError where
  | InvalidFormat (msg : String)
  | FilledPosition (msg : String)
  | OutsideBoard (msg : String)
deriving DecidableEq, Repr

/-- Error type of `parse_player_move` in game.rs. -/
inductive PlayerInputParseError where
  | InvalidFormat (msg : String)
deriving DecidableEq, Repr

def outside_board_message : String := "The move is invalid because it is outside the board."

def filled_position_message : String := "The position is already filled."

def invalid_format_error_message : String := "Invalid format"

/-- The 3×3 grid of tiles (`Board` in board.rs, the newtype `Board` in main.rs). -/
structure Board where
  tiles : Fin 3 → Fin 3 → Symbol

/-- `Board::new()`: all 9 cells `Empty`. -/
def Board.new : Board := ⟨fun _ _ => Symbol.Empty⟩

/-- Reading `tiles[r][c]` with `usize` indices; `none` models the
out-of-bounds panic of Rust indexing. -/
def getTile (b : Board) (r c : Nat) : Option Symbol :=
  if hr : r < 3 then
    if hc : c < 3 then some (b.tiles ⟨r, hr⟩ ⟨c, hc⟩) else none
  else none

/-- Writing `tiles[r][c] = s` with `usize` indices; `none` models the
out-of-bounds panic of Rust indexing. -/
def setTile (b : Board) (s : Symbol) (r c : Nat) : Option Board :=
  if hr : r < 3 then
    if hc : c < 3 then
      some ⟨fun i j => if i = ⟨r, hr⟩ ∧ j = ⟨c, hc⟩ then s else b.tiles i j⟩
    else none
  else none

/-- `Board::place`: `self.tiles[m[0]][m[1]] = symbol` (unguarded indexing). -/
def Board.place (b : Board) (symbol : Symbol) (player_move : Nat × Nat) : Option Board :=
  setTile b symbol player_move.1 player_move.2

/-- `Board::is_valid_move`: bounds check first (`OutsideBoard`), then
occupancy check (`FilledPosition`), else `Ok(true)`. -/
def Board.is_valid_move (b : Board) (player_move : Nat × Nat) :
    Option (Except PlayerMoveError Bool) :=
  if player_move.1 > 2 ∨ player_move.2 > 2 then
    some (Except.error (PlayerMoveError.OutsideBoard outside_board_message))
  else
    match getTile b player_move.1 player_move.2 with
    | none => none
    | some t =>
      if t ≠ Symbol.Empty then
        some (Except.error (PlayerMoveError.FilledPosition filled_position_message))
      else
        some (Except.ok true)

/-- `Board::winner`: the `for i in 0..3` loop of row/column checks unrolled
(each early `return` becomes an `if … then some … else` branch), followed by
the two diagonal checks. -/
def Board.winner (b : Board) : Option Symbol :=
  let t := b.tiles
  if t 0 0 = t 0 1 ∧ t 0 0 = t 0 2 ∧ t 0 0 ≠ Symbol.Empty then some (t 0 0)
  else if t 0 0 = t 1 0 ∧ t 0 0 = t 2 0 ∧ t 0 0 ≠ Symbol.Empty then some (t 0 0)
  else if t 1 0 = t 1 1 ∧ t 1 0 = t 1 2 ∧ t 1 0 ≠ Symbol.Empty then some (t 1 0)
  else if t 0 1 = t 1 1 ∧ t 0 1 = t 2 1 ∧ t 0 1 ≠ Symbol.Empty then some (t 0 1)
  else if t 2 0 = t 2 1 ∧ t 2 0 = t 2 2 ∧ t 2 0 ≠ Symbol.Empty then some (t 2 0)
  else if t 0 2 = t 1 2 ∧ t 0 2 = t 2 2 ∧ t 0 2 ≠ Symbol.Empty then some (t 0 2)
  else if t 0 0 ≠ Symbol.Empty ∧ t 0 0 = t 1 1 ∧ t 0 0 = t 2 2 then some (t 0 0)
  else if t 0 2 ≠ Symbol.Empty ∧ t 0 2 = t 1 1 ∧ t 0 2 = t 2 0 then some (t 0 2)
  else none

/-- `find_winner` in main.rs (textually the same algorithm as `Board::winner`). -/
def find_winner (board : Board) : Option Symbol :=
  let t := board.tiles
  if t 0 0 = t 0 1 ∧ t 0 0 = t 0 2 ∧ t 0 0 ≠ Symbol.Empty then some (t 0 0)
  else if t 0 0 = t 1 0 ∧ t 0 0 = t 2 0 ∧ t 0 0 ≠ Symbol.Empty then some (t 0 0)
  else if t 1 0 = t 1 1 ∧ t 1 0 = t 1 2 ∧ t 1 0 ≠ Symbol.Empty then some (t 1 0)
  else if t 0 1 = t 1 1 ∧ t 0 1 = t 2 1 ∧ t 0 1 ≠ Symbol.Empty then some (t 0 1)
  else if t 2 0 = t 2 1 ∧ t 2 0 = t 2 2 ∧ t 2 0 ≠ Symbol.Empty then some (t 2 0)
  else if t 0 2 = t 1 2 ∧ t 0 2 = t 2 2 ∧ t 0 2 ≠ Symbol.Empty then some (t 0 2)
  else if t 0 0 ≠ Symbol.Empty ∧ t 0 0 = t 1 1 ∧ t 0 0 = t 2 2 then some (t 0 0)
  else if t 0 2 ≠ Symbol.Empty ∧ t 0 2 = t 1 1 ∧ t 0 2 = t 2 0 then some (t 0 2)
  else none

/-- The free function `is_valid_move(player_move, board)` in main.rs
(same algorithm as `Board::is_valid_move`, different error type). -/
def main_is_valid_move (player_move : Nat × Nat) (board : Board) :
    Option (Except MainPlayerMoveError Bool) :=
  if player_move.1 > 2 ∨ player_move.2 > 2 then
    some (Except.error (MainPlayerMoveError.OutsideBoard outside_board_message))
  else
    match getTile board player_move.1 player_move.2 with
    | none => none
    | some t =>
      if t ≠ Symbol.Empty then
        some (Except.error (MainPlayerMoveError.FilledPosition filled_position_message))
      else
        some (Except.ok true)

/-- `place_on_board` in main.rs: clones the board and writes the symbol. -/
def place_on_board (symbol : Symbol) (player_move : Nat × Nat) (board : Board) :
    Option Board :=
  setTile board symbol player_move.1 player_move.2

/-! ### Rendering (`impl Display for Board` in board.rs, `board_presentation` in main.rs) -/

/-- `impl From<Symbol> for &str`. -/
def symbol_str : Symbol → String
  | Symbol.Empty => "-"
  | Symbol.Plus => "+"
  | Symbol.Circle => "o"

/-- Rust's `[T; n]::join(sep)` on a list of strings. -/
def rustJoin (sep : String) : List String → String
  | [] => ""
  | [a] => a
  | a :: b :: rest => a ++ sep ++ rustJoin sep (b :: rest)

/-- One row of the rendering: `format!("| {} |", row.map(Into).join(" | "))`. -/
def row_presentation (t : Fin 3 → Fin 3 → Symbol) (i : Fin 3) : String :=
  "| " ++ rustJoin " | " [symbol_str (t i 0), symbol_str (t i 1), symbol_str (t i 2)] ++ " |"

/-- The full rendering: rows joined with newlines (Display in board.rs and
`board_presentation` in main.rs share this body). -/
def board_presentation (board : Board) : String :=
  rustJoin "\n"
    [row_presentation board.tiles 0, row_presentation board.tiles 1, row_presentation board.tiles 2]

/-! ### Input parsing (`parse_player_move` in game.rs and in main.rs) -/

/-- Rust's `str::split(',')`: `""` yields one empty segment, a separator at
either end yields an empty segment on that side. -/
def rustSplit (sep : Char) : List Char → List (List Char)
  | [] => [[]]
  | c :: cs =>
    match rustSplit sep cs with
    | [] => [[]]
    | seg :: segs => if c = sep then [] :: seg :: segs else (c :: seg) :: segs

/-- Rust's `str::trim`: whitespace stripped from both ends. -/
def rustTrim (l : List Char) : List Char :=
  ((l.dropWhile Char.isWhitespace).reverse.dropWhile Char.isWhitespace).reverse

/-- Rust's `char::to_digit(10)`: `some` exactly on the ASCII digits. -/
def to_digit10 (c : Char) : Option Nat :=
  if c.isDigit then some (c.toNat - Char.toNat '0') else none

/-- `parse_player_move` in game.rs: split on commas, trim each segment,
require exactly two segments of length 1, convert both to digits. -/
def parse_player_move (player_move : List Char) :
    Except PlayerInputParseError (Nat × Nat) :=
  match (rustSplit ',' player_move).map rustTrim with
  | [p0, p1] =>
    if h0 : p0.length = 1 then
      if h1 : p1.length = 1 then
        match to_digit10 (p0.head (List.ne_nil_of_length_pos (by omega))) with
        | some x =>
          match to_digit10 (p1.head (List.ne_nil_of_length_pos (by omega))) with
          | some y => Except.ok (x, y)
          | none => Except.error (PlayerInputParseError.InvalidFormat invalid_format_error_message)
        | none => Except.error (PlayerInputParseError.InvalidFormat invalid_format_error_message)
      else Except.error (PlayerInputParseError.InvalidFormat invalid_format_error_message)
    else Except.error (PlayerInputParseError.InvalidFormat invalid_format_error_message)
  | _ => Except.error (PlayerInputParseError.InvalidFormat invalid_format_error_message)

/-- `parse_player_move` in main.rs: same algorithm, but its own error type,
and the second-segment digit failure carries the message
"Invalid format." (with a trailing period), unlike every other branch. -/
def main_parse_player_move (player_move : List Char) :
    Except MainPlayerMoveError (Nat × Nat) :=
  match (rustSplit ',' player_move).map rustTrim with
  | [p0, p1] =>
    if h0 : p0.length = 1 then
      if h1 : p1.length = 1 then
        match to_digit10 (p0.head (List.ne_nil_of_length_pos (by omega))) with
        | some x =>
          match to_digit10 (p1.head (List.ne_nil_of_length_pos (by omega))) with
          | some y => Except.ok (x, y)
          | none => Except.error (MainPlayerMoveError.InvalidFormat "Invalid format.")
        | none => Except.error (MainPlayerMoveError.InvalidFormat "Invalid format")
      else Except.error (MainPlayerMoveError.InvalidFormat "Invalid format")
    else Except.error (MainPlayerMoveError.InvalidFormat "Invalid format")
  | _ => Except.error (MainPlayerMoveError.InvalidFormat "Invalid format")

/-! ### The turn loop (`start` in game.rs) -/

/-- The two players of game.rs. -/
inductive Player where
  | One
  | Two
deriving DecidableEq, Repr

/-- `impl From<Player> for Symbol`. -/
def Player.symbol : Player → Symbol
  | Player.One => Symbol.Plus
  | Player.Two => Symbol.Circle

/-- The two-armed `match` that alternates the turn at the bottom of the loop. -/
def Player.next : Player → Player
  | Player.One => Player.Two
  | Player.Two => Player.One

/-- The mutable state of the loop in `start`: the active player and the board. -/
structure GameState where
  player_turn : Player
  board : Board

/-- What one loop iteration does after reading a line: either re-loop in
state `s` (a `continue`, or falling to the bottom of the loop body) or
announce a winner and `break` with final board `b`. -/
inductive GameOutcome where
  | again (s : GameState)
  | finished (winner : Player) (b : Board)

/-- One iteration of the loop body of `start`, given the line read from
stdin: parse, validate, place, check for a winner, alternate the turn.
`none` models an out-of-bounds panic inside `place` (never reached). -/
def step (s : GameState) (input : List Char) : Option GameOutcome :=
  match parse_player_move input with
  | Except.error _ => some (GameOutcome.again s)
  | Except.ok player_move =>
    match s.board.is_valid_move player_move with
    | none => none
    | some (Except.error _) => some (GameOutcome.again s)
    | some (Except.ok _) =>
      match s.board.place s.player_turn.symbol player_move with
      | none => none
      | some b =>
        if (b.winner).isSome then some (GameOutcome.finished s.player_turn b)
        else some (GameOutcome.again { player_turn := s.player_turn.next, board := b })

/-- The reachable states of `start`, each paired with the accepted moves so
far: the loop starts with `Player::One` on a fresh board; an iteration that
re-loops either leaves the state untouched (a rejected turn) or records the
accepted move it placed. -/
inductive Trace : GameState → List ((Nat × Nat) × Symbol) → Prop where
  | init : Trace { player_turn := Player.One, board := Board.new } []
  | rejected (s : GameState) (ms : List ((Nat × Nat) × Symbol)) (input : List Char) :
      Trace s ms →
      step s input = some (GameOutcome.again s) →
      Trace s ms
  | accepted (s : GameState) (ms : List ((Nat × Nat) × Symbol))
      (input : List Char) (mv : Nat × Nat) (s' : GameState) :
      Trace s ms →
      parse_player_move input = Except.ok mv →
      s.board.is_valid_move mv = some (Except.ok true) →
      step s input = some (GameOutcome.again s') →
      Trace s' (ms ++ [(mv, s.player_turn.symbol)])

/-! ### Win detection: the scan order of `winner()` -/

/-- The eight winning lines in the scan order of `Board::winner`: row 0,
column 0, row 1, column 1, row 2, column 2, main diagonal, anti-diagonal. -/
def lines_in_order (t : Fin 3 → Fin 3 → Symbol) : List (Symbol × Symbol × Symbol) :=
  [(t 0 0, t 0 1, t 0 2), (t 0 0, t 1 0, t 2 0),
   (t 1 0, t 1 1, t 1 2), (t 0 1, t 1 1, t 2 1),
   (t 2 0, t 2 1, t 2 2), (t 0 2, t 1 2, t 2 2),
   (t 0 0, t 1 1, t 2 2), (t 0 2, t 1 1, t 2 0)]

/-- A line is winning when its three cells hold the same non-Empty mark. -/
def line_winner : Symbol × Symbol × Symbol → Option Symbol
  | (a, b, c) => if a = b ∧ a = c ∧ a ≠ Symbol.Empty then some a else none

/-- The first fully matched line of a list, if any. -/
def first_line_winner : List (Symbol × Symbol × Symbol) → Option Symbol
  | [] => none
  | l :: ls =>
    match line_winner l with
    | some s => some s
    | none => first_line_winner ls

/-- Specification-side winner: the mark of the first line, in scan order,
whose three cells hold the same non-Empty mark. -/
def winner_by_first_line (b : Board) : Option Symbol :=
  first_line_winner (lines_in_order b.tiles)

lemma diag_cond_comm (a b c : Symbol) (x y : Option Symbol) :
    (if a ≠ Symbol.Empty ∧ a = b ∧ a = c then x else y) =
    (if a = b ∧ a = c ∧ a ≠ Symbol.Empty then x else y) := by
  split_ifs <;> tauto

lemma winner_eq_first_line (b : Board) : b.winner = winner_by_first_line b := by
  simp only [Board.winner, winner_by_first_line, lines_in_order, line_winner, first_line_winner]
  rw [diag_cond_comm, diag_cond_comm]
  by_cases h1 : b.tiles 0 0 = b.tiles 0 1 ∧ b.tiles 0 0 = b.tiles 0 2 ∧ b.tiles 0 0 ≠ Symbol.Empty
  · rw [if_pos h1, if_pos h1]
  rw [if_neg h1, if_neg h1]
  by_cases h2 : b.tiles 0 0 = b.tiles 1 0 ∧ b.tiles 0 0 = b.tiles 2 0 ∧ b.tiles 0 0 ≠ Symbol.Empty
  · rw [if_pos h2, if_pos h2]
  rw [if_neg h2, if_neg h2]
  by_cases h3 : b.tiles 1 0 = b.tiles 1 1 ∧ b.tiles 1 0 = b.tiles 1 2 ∧ b.tiles 1 0 ≠ Symbol.Empty
  · rw [if_pos h3, if_pos h3]
  rw [if_neg h3, if_neg h3]
  by_cases h4 : b.tiles 0 1 = b.tiles 1 1 ∧ b.tiles 0 1 = b.tiles 2 1 ∧ b.tiles 0 1 ≠ Symbol.Empty
  · rw [if_pos h4, if_pos h4]
  rw [if_neg h4, if_neg h4]
  by_cases h5 : b.tiles 2 0 = b.tiles 2 1 ∧ b.tiles 2 0 = b.tiles 2 2 ∧ b.tiles 2 0 ≠ Symbol.Empty
  · rw [if_pos h5, if_pos h5]
  rw [if_neg h5, if_neg h5]
  by_cases h6 : b.tiles 0 2 = b.tiles 1 2 ∧ b.tiles 0 2 = b.tiles 2 2 ∧ b.tiles 0 2 ≠ Symbol.Empty
  · rw [if_pos h6, if_pos h6]
  rw [if_neg h6, if_neg h6]
  by_cases h7 : b.tiles 0 0 = b.tiles 1 1 ∧ b.tiles 0 0 = b.tiles 2 2 ∧ b.tiles 0 0 ≠ Symbol.Empty
  · rw [if_pos h7, if_pos h7]
  rw [if_neg h7, if_neg h7]
  by_cases h8 : b.tiles 0 2 = b.tiles 1 1 ∧ b.tiles 0 2 = b.tiles 2 0 ∧ b.tiles 0 2 ≠ Symbol.Empty
  · rw [if_pos h8]
  rw [if_neg h8]

lemma first_line_winner_ne_empty :
    ∀ (ls : List (Symbol × Symbol × Symbol)) (s : Symbol),
      first_line_winner ls = some s → s ≠ Symbol.Empty := by
  intro ls
  induction ls with
  | nil => intro s h; simp [first_line_winner] at h
  | cons l ls ih =>
    intro s h
    rcases l with ⟨a, b, c⟩
    simp only [first_line_winner, line_winner] at h
    split_ifs at h with hc
    · simp only [Option.some.injEq] at h
      subst h
      exact hc.2.2
    · exact ih s h

/-- A board whose first row is all `Plus`, used to instantiate theorems. -/
def row0_plus_board : Board :=
  ⟨fun i _ => if i = 0 then Symbol.Plus else Symbol.Empty⟩

/-- C1: `winner()` examines the 8 lines in the fixed order row 0, column 0,
row 1, column 1, row 2, column 2, main diagonal, anti-diagonal, returning
the mark of the first line whose three cells hold the same non-Empty mark
and `none` when no line is fully matched; `Empty` is never returned as a
winner and a freshly constructed board has no winner. -/
theorem C1_winner_scan_order :
    (∀ b : Board, b.winner = winner_by_first_line b) ∧
    (∀ (b : Board) (s : Symbol), b.winner = some s → s ≠ Symbol.Empty) ∧
    Board.new.winner = none := by
  refine ⟨winner_eq_first_line, ?_, rfl⟩
  intro b s h
  rw [winner_eq_first_line] at h
  exact first_line_winner_ne_empty _ s h

/-- Witness for C1 at a concrete board: the board with row 0 all `Plus`
has winner `Plus`, and the hypothesis `winner = some Plus` is discharged
by evaluation. -/
theorem C1_winner_scan_order_witness :
    Symbol.Plus ≠ Symbol.Empty ∧ row0_plus_board.winner = winner_by_first_line row0_plus_board :=
  ⟨C1_winner_scan_order.2.1 row0_plus_board Symbol.Plus rfl,
   C1_winner_scan_order.1 row0_plus_board⟩

/-! ### Equivalence of the duplicated implementations (board.rs vs main.rs) -/

/-- The correspondence between the two error types: board.rs's
`PlayerMoveError` variants map to the equally named main.rs variants. -/
def toMainError : PlayerMoveError → MainPlayerMoveError
  | PlayerMoveError.FilledPosition msg => MainPlayerMoveError.FilledPosition msg
  | PlayerMoveError.OutsideBoard msg => MainPlayerMoveError.OutsideBoard msg

/-- C10: the duplicated implementations agree extensionally: `Board::winner`
(board.rs) and `find_winner` (main.rs) return the same result on every
board, and `Board::is_valid_move` (board.rs) and the free `is_valid_move`
(main.rs) agree on every board and position, up to the renaming of the
error type. -/
theorem C10_duplicated_impls_agree :
    (∀ b : Board, b.winner = find_winner b) ∧
    (∀ (b : Board) (m : Nat × Nat),
      main_is_valid_move m b = (b.is_valid_move m).map (Except.mapError toMainError)) := by
  refine ⟨fun b => rfl, ?_⟩
  intro b m
  simp only [main_is_valid_move, Board.is_valid_move]
  split_ifs with h
  · rfl
  · cases hg : getTile b m.1 m.2 with
    | none => rfl
    | some t =>
      simp only [Option.map_some]
      by_cases ht : t ≠ Symbol.Empty
      · rw [if_pos ht, if_pos ht]
        rfl
      · rw [if_neg ht, if_neg ht]
        rfl

/-! ### Move validation and placement -/

lemma getTile_in_bounds (b : Board) (r c : Nat) (h1 : r < 3) (h2 : c < 3) :
    getTile b r c = some (b.tiles ⟨r, h1⟩ ⟨c, h2⟩) := by
  simp [getTile, h1, h2]

/-- The full case analysis of `is_valid_move`, shared by several proofs. -/
lemma is_valid_move_spec :
    ∀ (b : Board) (m : Nat × Nat),
      (b.is_valid_move m = some (Except.ok true) ↔
        m.1 ≤ 2 ∧ m.2 ≤ 2 ∧ getTile b m.1 m.2 = some Symbol.Empty) ∧
      (m.1 > 2 ∨ m.2 > 2 →
        b.is_valid_move m =
          some (Except.error (PlayerMoveError.OutsideBoard outside_board_message))) ∧
      (∀ t : Symbol, m.1 ≤ 2 → m.2 ≤ 2 → getTile b m.1 m.2 = some t → t ≠ Symbol.Empty →
        b.is_valid_move m =
          some (Except.error (PlayerMoveError.FilledPosition filled_position_message))) := by
  intro b m
  by_cases h : m.1 > 2 ∨ m.2 > 2
  · refine ⟨?_, fun _ => ?_, fun t ht1 ht2 _ _ => ?_⟩
    · rw [Board.is_valid_move, if_pos h]
      simp only [Option.some.injEq]
      constructor
      · intro hx; exact absurd hx (by simp)
      · intro hx; exfalso; omega
    · rw [Board.is_valid_move, if_pos h]
    · exfalso; omega
  · push_neg at h
    have h1 : m.1 < 3 := by omega
    have h2 : m.2 < 3 := by omega
    have hg := getTile_in_bounds b m.1 m.2 h1 h2
    rw [Board.is_valid_move, if_neg (by omega), hg]
    by_cases ht : b.tiles ⟨m.1, h1⟩ ⟨m.2, h2⟩ ≠ Symbol.Empty
    · simp only [Option.map_some]
      rw [if_pos ht]
      refine ⟨?_, fun hc => absurd hc (by omega), fun t _ _ hgt hte => rfl⟩
      constructor
      · intro hx; exact absurd hx (by simp)
      · intro ⟨_, _, hx⟩; exact absurd (Option.some.inj hx) ht
    · push_neg at ht
      simp only [Option.map_some]
      rw [if_neg (by simp [ht])]
      refine ⟨?_, fun hc => absurd hc (by omega), fun t _ _ hgt hte => ?_⟩
      · simp [hg, ht]; omega
      · exact absurd ((Option.some.inj hgt).symm.trans ht) hte

/-- C2: `is_valid_move` returns `Ok(true)` iff both coordinates are at most
2 and the cell there is `Empty`; when either coordinate exceeds 2 it
returns the `OutsideBoard` error regardless of occupancy (bounds are
checked first); when in bounds but the cell is non-Empty it returns the
`FilledPosition` error. -/
theorem C2_is_valid_move_cases :
    ∀ (b : Board) (m : Nat × Nat),
      (b.is_valid_move m = some (Except.ok true) ↔
        m.1 ≤ 2 ∧ m.2 ≤ 2 ∧ getTile b m.1 m.2 = some Symbol.Empty) ∧
      (m.1 > 2 ∨ m.2 > 2 →
        b.is_valid_move m =
          some (Except.error (PlayerMoveError.OutsideBoard outside_board_message))) ∧
      (∀ t : Symbol, m.1 ≤ 2 → m.2 ≤ 2 → getTile b m.1 m.2 = some t → t ≠ Symbol.Empty →
        b.is_valid_move m =
          some (Except.error (PlayerMoveError.FilledPosition filled_position_message))) :=
  is_valid_move_spec

/-- A board whose centre cell holds `Plus`, used to instantiate theorems. -/
def center_plus_board : Board :=
  ⟨fun i j => if i = 1 ∧ j = 1 then Symbol.Plus else Symbol.Empty⟩

/-- Witness for C2: the three cases evaluated on concrete boards and moves. -/
theorem C2_is_valid_move_cases_witness :
    Board.new.is_valid_move (0, 0) = some (Except.ok true) ∧
    Board.new.is_valid_move (3, 0) =
      some (Except.error (PlayerMoveError.OutsideBoard outside_board_message)) ∧
    center_plus_board.is_valid_move (1, 1) =
      some (Except.error (PlayerMoveError.FilledPosition filled_position_message)) :=
  ⟨((C2_is_valid_move_cases Board.new (0, 0)).1).mpr ⟨by decide, by decide, rfl⟩,
   (C2_is_valid_move_cases Board.new (3, 0)).2.1 (by decide),
   (C2_is_valid_move_cases center_plus_board (1, 1)).2.2 Symbol.Plus
     (by decide) (by decide) rfl (by decide)⟩

/-- C7: for in-bounds coordinates, `place` succeeds, a subsequent query of
that cell returns exactly the placed mark, and every other cell holds the
value it held before. -/
theorem C7_place_frame :
    ∀ (b : Board) (s : Symbol) (m : Nat × Nat), m.1 ≤ 2 → m.2 ≤ 2 →
      ∃ b', b.place s m = some b' ∧
        getTile b' m.1 m.2 = some s ∧
        ∀ i j : Fin 3, ¬(i.val = m.1 ∧ j.val = m.2) → b'.tiles i j = b.tiles i j := by
  intro b s m hm1 hm2
  have h1 : m.1 < 3 := by omega
  have h2 : m.2 < 3 := by omega
  rw [Board.place, setTile, dif_pos h1, dif_pos h2]
  refine ⟨_, rfl, ?_, ?_⟩
  · rw [getTile_in_bounds _ _ _ h1 h2]
    simp
  · intro i j hij
    simp only []
    rw [if_neg]
    intro ⟨hi, hj⟩
    exact hij ⟨by rw [hi], by rw [hj]⟩

/-- Witness for C7: placing `Plus` at the centre of a fresh board. -/
theorem C7_place_frame_witness :
    ∃ b', Board.new.place Symbol.Plus (1, 1) = some b' ∧
      getTile b' 1 1 = some Symbol.Plus ∧
      ∀ i j : Fin 3, ¬(i.val = 1 ∧ j.val = 1) → b'.tiles i j = Board.new.tiles i j :=
  C7_place_frame Board.new Symbol.Plus (1, 1) (by decide) (by decide)

/-- C9: `is_valid_move` is total — the occupancy lookup is reached only
behind the bounds check, so it never triggers the out-of-bounds panic
(`none`) for any input position — while `place`'s unguarded indexing
succeeds exactly when both coordinates are in [0,2]. -/
theorem C9_no_out_of_bounds_access :
    ∀ (b : Board) (m : Nat × Nat) (s : Symbol),
      (b.is_valid_move m).isSome = true ∧
      ((b.place s m).isSome = true ↔ m.1 ≤ 2 ∧ m.2 ≤ 2) := by
  intro b m s
  constructor
  · by_cases h : m.1 > 2 ∨ m.2 > 2
    · rw [Board.is_valid_move, if_pos h]; rfl
    · have h1 : m.1 < 3 := by omega
      have h2 : m.2 < 3 := by omega
      rw [Board.is_valid_move, if_neg h, getTile_in_bounds _ _ _ h1 h2]
      simp only [Option.map_some]
      by_cases ht : b.tiles ⟨m.1, h1⟩ ⟨m.2, h2⟩ ≠ Symbol.Empty
      · rw [if_pos ht]; rfl
      · rw [if_neg ht]; rfl
  · rw [Board.place, setTile]
    by_cases h1 : m.1 < 3
    · rw [dif_pos h1]
      by_cases h2 : m.2 < 3
      · rw [dif_pos h2]; simp; omega
      · rw [dif_neg h2]; simp; omega
    · rw [dif_neg h1]; simp; omega

/-! ### Parsing -/

lemma parse_error_msg : ∀ (s : List Char) (e : PlayerInputParseError),
    parse_player_move s = Except.error e →
    e = PlayerInputParseError.InvalidFormat invalid_format_error_message := by
  intro s e h
  unfold parse_player_move at h
  repeat' split at h
  all_goals
    first
      | exact Except.noConfusion h
      | exact (Except.error.inj h).symm

/-- C3: `parse_player_move` succeeds iff the line splits on commas into
exactly two segments that each trim to a single ASCII decimal digit; the
two digits become the row and column in that order; concrete examples
"0,1" → (0,1), "0 , 0" → (0,0), "3,0" → (3,0), and ",1", "2,", "30",
"a,b", "" all fail with `InvalidFormat`. -/
theorem C3_parse_grammar :
    (∀ (s : List Char) (r c : Nat),
      parse_player_move s = Except.ok (r, c) ↔
        ∃ c0 c1 : Char, (rustSplit ',' s).map rustTrim = [[c0], [c1]] ∧
          c0.isDigit ∧ c1.isDigit ∧
          r = c0.toNat - Char.toNat '0' ∧ c = c1.toNat - Char.toNat '0') ∧
    (∀ (s : List Char) (e : PlayerInputParseError),
      parse_player_move s = Except.error e →
        e = PlayerInputParseError.InvalidFormat invalid_format_error_message) ∧
    parse_player_move ("0,1".toList) = Except.ok (0, 1) ∧
    parse_player_move ("0 , 0".toList) = Except.ok (0, 0) ∧
    parse_player_move ("3,0".toList) = Except.ok (3, 0) ∧
    parse_player_move (",1".toList) =
      Except.error (PlayerInputParseError.InvalidFormat invalid_format_error_message) ∧
    parse_player_move ("2,".toList) =
      Except.error (PlayerInputParseError.InvalidFormat invalid_format_error_message) ∧
    parse_player_move ("30".toList) =
      Except.error (PlayerInputParseError.InvalidFormat invalid_format_error_message) ∧
    parse_player_move ("a,b".toList) =
      Except.error (PlayerInputParseError.InvalidFormat invalid_format_error_message) ∧
    parse_player_move ("".toList) =
      Except.error (PlayerInputParseError.InvalidFormat invalid_format_error_message) := by
  refine ⟨?_, parse_error_msg, rfl, rfl, rfl, rfl, rfl, rfl, rfl, rfl⟩
  intro s r c
  rcases hseg : (rustSplit ',' s).map rustTrim with _ | ⟨p0, _ | ⟨p1, _ | ⟨p2, rest⟩⟩⟩
  · simp [parse_player_move, hseg]
  · simp [parse_player_move, hseg]
  · rcases p0 with _ | ⟨c0, _ | ⟨c0b, rest0⟩⟩
    · simp [parse_player_move, hseg]
    · rcases p1 with _ | ⟨c1, _ | ⟨c1b, rest1⟩⟩
      · simp [parse_player_move, hseg]
      · simp only [parse_player_move, hseg, to_digit10, List.head_cons, List.length_cons,
          List.length_nil]
        by_cases hd0 : c0.isDigit
        · by_cases hd1 : c1.isDigit
          · simp [hd0, hd1]
            constructor
            · intro ⟨h1, h2⟩
              exact ⟨c0, c1, ⟨rfl, rfl⟩, hd0, hd1, h1.symm, h2.symm⟩
            · rintro ⟨a, b, ⟨ha, hb⟩, _, _, h1, h2⟩
              subst ha; subst hb
              exact ⟨h1.symm, h2.symm⟩
          · simp [hd0, hd1]
        · simp [hd0]
      · simp [parse_player_move, hseg]
    · simp [parse_player_move, hseg]
  · simp [parse_player_move, hseg]

/-- Witness for C3: the error-message clause applied at input ",1" (whose
rejection is evaluated by `rfl`), and the grammar iff applied at "0,1". -/
theorem C3_parse_grammar_witness :
    PlayerInputParseError.InvalidFormat invalid_format_error_message =
      PlayerInputParseError.InvalidFormat invalid_format_error_message ∧
    parse_player_move ("0,1".toList) = Except.ok (0, 1) :=
  ⟨C3_parse_grammar.2.1 (",1".toList)
      (PlayerInputParseError.InvalidFormat invalid_format_error_message) rfl,
   (C3_parse_grammar.1 ("0,1".toList) 0 1).mpr
      ⟨'0', '1', rfl, by decide, by decide, by decide, by decide⟩⟩

/-- C6 (bug evidence): on input "1,b" the main.rs parser rejects via its
second-segment digit check and the carried message is "Invalid format."
with a trailing period — not the fixed "Invalid format" of every other
rejection branch (the game.rs parser on the same input carries the fixed
message). -/
theorem C6_main_message_not_fixed :
    main_parse_player_move ("1,b".toList) =
      Except.error (MainPlayerMoveError.InvalidFormat "Invalid format.") ∧
    parse_player_move ("1,b".toList) =
      Except.error (PlayerInputParseError.InvalidFormat "Invalid format") ∧
    "Invalid format." ≠ "Invalid format" :=
  ⟨rfl, rfl, by simp⟩

/-! ### Rendering -/

/-- C8: the rendering is 3 rows separated by newlines, each row wrapping
its 3 cells with "| "/" |" borders and " | " separators, cells mapped
Empty→"-", Plus→"+", Circle→"o"; a fresh board renders as three lines
each reading "| - | - | - |". -/
theorem C8_rendering :
    (∀ b : Board, board_presentation b =
      row_presentation b.tiles 0 ++ "\n" ++ row_presentation b.tiles 1 ++ "\n" ++
        row_presentation b.tiles 2) ∧
    (∀ (t : Fin 3 → Fin 3 → Symbol) (i : Fin 3), row_presentation t i =
      "| " ++ symbol_str (t i 0) ++ " | " ++ symbol_str (t i 1) ++ " | " ++
        symbol_str (t i 2) ++ " |") ∧
    symbol_str Symbol.Empty = "-" ∧
    symbol_str Symbol.Plus = "+" ∧
    symbol_str Symbol.Circle = "o" ∧
    board_presentation Board.new =
      "| - | - | - |" ++ "\n" ++ "| - | - | - |" ++ "\n" ++ "| - | - | - |" := by
  refine ⟨?_, ?_, rfl, rfl, rfl, rfl⟩
  · intro b
    simp [board_presentation, rustJoin, String.append_assoc]
  · intro t i
    simp [row_presentation, rustJoin, String.append_assoc]

/-! ### The turn loop -/

lemma player_symbol_ne_empty (p : Player) : p.symbol ≠ Symbol.Empty := by
  cases p <;> simp [Player.symbol]

lemma is_valid_move_ok_elim (b : Board) (m : Nat × Nat) (x : Bool)
    (h : b.is_valid_move m = some (Except.ok x)) :
    x = true ∧ m.1 ≤ 2 ∧ m.2 ≤ 2 ∧ getTile b m.1 m.2 = some Symbol.Empty := by
  by_cases hb : m.1 > 2 ∨ m.2 > 2
  · rw [(is_valid_move_spec b m).2.1 hb] at h
    exact absurd (Option.some.inj h) (by simp)
  · push_neg at hb
    have h1 : m.1 < 3 := by omega
    have h2 : m.2 < 3 := by omega
    have hg := getTile_in_bounds b m.1 m.2 h1 h2
    by_cases ht : b.tiles ⟨m.1, h1⟩ ⟨m.2, h2⟩ = Symbol.Empty
    · have hok := ((is_valid_move_spec b m).1).mpr ⟨hb.1, hb.2, by rw [hg, ht]⟩
      rw [hok] at h
      exact ⟨Except.ok.inj (Option.some.inj h).symm, hb.1, hb.2, by rw [hg, ht]⟩
    · rw [(is_valid_move_spec b m).2.2 _ hb.1 hb.2 hg ht] at h
      exact absurd (Option.some.inj h) (by simp)

lemma place_in_bounds (b : Board) (s : Symbol) (m : Nat × Nat) (h1 : m.1 < 3) (h2 : m.2 < 3) :
    b.place s m =
      some ⟨fun i j => if i = ⟨m.1, h1⟩ ∧ j = ⟨m.2, h2⟩ then s else b.tiles i j⟩ := by
  rw [Board.place, setTile, dif_pos h1, dif_pos h2]

/-- C5: the loop's turn handling as a step relation — a parse failure or a
validation failure re-loops with board and active player unchanged; an
accepted move with no winner re-loops with the placed board and the other
player active; an accepted move that produces a winner terminates the loop
announcing the active player. -/
theorem C5_turn_handling :
    ∀ (s : GameState) (input : List Char),
      (∀ e : PlayerInputParseError, parse_player_move input = Except.error e →
        step s input = some (GameOutcome.again s)) ∧
      (∀ (mv : Nat × Nat) (e : PlayerMoveError), parse_player_move input = Except.ok mv →
        s.board.is_valid_move mv = some (Except.error e) →
        step s input = some (GameOutcome.again s)) ∧
      (∀ (mv : Nat × Nat) (b : Board), parse_player_move input = Except.ok mv →
        s.board.is_valid_move mv = some (Except.ok true) →
        s.board.place s.player_turn.symbol mv = some b →
        b.winner = none →
        step s input =
          some (GameOutcome.again { player_turn := s.player_turn.next, board := b })) ∧
      (∀ (mv : Nat × Nat) (b : Board) (w : Symbol), parse_player_move input = Except.ok mv →
        s.board.is_valid_move mv = some (Except.ok true) →
        s.board.place s.player_turn.symbol mv = some b →
        b.winner = some w →
        step s input = some (GameOutcome.finished s.player_turn b)) := by
  intro s input
  refine ⟨?_, ?_, ?_, ?_⟩
  · intro e hp; simp [step, hp]
  · intro mv e hp hv; simp [step, hp, hv]
  · intro mv b hp hv hpl hw; simp [step, hp, hv, hpl, hw]
  · intro mv b w hp hv hpl hw; simp [step, hp, hv, hpl, hw]

/-- The loop's initial state: `Player::One` on a fresh board. -/
def init_state : GameState := ⟨Player.One, Board.new⟩

/-- One `Plus` at (0,0). -/
def b00_board : Board := ⟨fun i j => if i = 0 ∧ j = 0 then Symbol.Plus else Symbol.Empty⟩

/-- `Plus` at (0,0) and (0,1). -/
def row01_board : Board :=
  ⟨fun i j => if i = 0 ∧ (j = 0 ∨ j = 1) then Symbol.Plus else Symbol.Empty⟩

/-- `row01_board` after placing `Plus` at (0,2): a full first row. -/
def row012_board : Board :=
  ⟨fun i j => if i = 0 ∧ j = 2 then Symbol.Plus else row01_board.tiles i j⟩

/-- Witness for C5: the four step cases evaluated on concrete states and
input lines ("abc" fails parsing, "3,0" fails validation, "0,0" is accepted
with no winner, "0,2" completes the first row and wins). -/
theorem C5_turn_handling_witness :
    step init_state ("abc".toList) = some (GameOutcome.again init_state) ∧
    step init_state ("3,0".toList) = some (GameOutcome.again init_state) ∧
    step init_state ("0,0".toList) =
      some (GameOutcome.again { player_turn := Player.Two, board := b00_board }) ∧
    step ⟨Player.One, row01_board⟩ ("0,2".toList) =
      some (GameOutcome.finished Player.One row012_board) :=
  ⟨(C5_turn_handling init_state ("abc".toList)).1
      (PlayerInputParseError.InvalidFormat invalid_format_error_message) rfl,
   (C5_turn_handling init_state ("3,0".toList)).2.1 (3, 0)
      (PlayerMoveError.OutsideBoard outside_board_message) rfl rfl,
   (C5_turn_handling init_state ("0,0".toList)).2.2.1 (0, 0) b00_board rfl rfl rfl rfl,
   (C5_turn_handling ⟨Player.One, row01_board⟩ ("0,2".toList)).2.2.2 (0, 2) row012_board
      Symbol.Plus rfl rfl rfl rfl⟩

/-- The board's non-Empty cells are exactly the accepted moves: every
accepted move's position holds the mark of the player who made it, every
non-Empty cell is accounted for by a move, and no position repeats. -/
def board_matches_moves (b : Board) (ms : List ((Nat × Nat) × Symbol)) : Prop :=
  (∀ mv ∈ ms, ∃ (h1 : mv.1.1 < 3) (h2 : mv.1.2 < 3),
      b.tiles ⟨mv.1.1, h1⟩ ⟨mv.1.2, h2⟩ = mv.2 ∧ mv.2 ≠ Symbol.Empty) ∧
  (∀ i j : Fin 3, b.tiles i j ≠ Symbol.Empty → ((i.val, j.val), b.tiles i j) ∈ ms) ∧
  (ms.map Prod.fst).Nodup

lemma trace_board_matches :
    ∀ (s : GameState) (ms : List ((Nat × Nat) × Symbol)),
      Trace s ms → board_matches_moves s.board ms := by
  intro s ms htr
  induction htr with
  | init =>
    refine ⟨?_, ?_, ?_⟩
    · intro mv hmem
      exact absurd hmem (List.not_mem_nil mv)
    · intro i j hne
      exact absurd rfl hne
    · simp
  | rejected s ms input htr hstep ih => exact ih
  | accepted s ms input mv s' htr hp hv hstep ih =>
    obtain ⟨-, hb1, hb2, hg⟩ := is_valid_move_ok_elim s.board mv true hv
    have h1 : mv.1 < 3 := by omega
    have h2 : mv.2 < 3 := by omega
    have hemp : s.board.tiles ⟨mv.1, h1⟩ ⟨mv.2, h2⟩ = Symbol.Empty := by
      rw [getTile_in_bounds _ _ _ h1 h2] at hg
      exact Option.some.inj hg
    obtain ⟨B, hpl, hBt⟩ : ∃ B : Board,
        s.board.place s.player_turn.symbol mv = some B ∧
        B.tiles = (fun i j =>
          if i = ⟨mv.1, h1⟩ ∧ j = ⟨mv.2, h2⟩ then s.player_turn.symbol
          else s.board.tiles i j) :=
      ⟨_, place_in_bounds s.board s.player_turn.symbol mv h1 h2, rfl⟩
    by_cases hw : (B.winner).isSome = true
    · have hs : step s input = some (GameOutcome.finished s.player_turn B) := by
        simp [step, hp, hv, hpl, hw]
      rw [hs] at hstep
      exact absurd (Option.some.inj hstep) (by simp)
    · have hwn : B.winner = none := by
        cases hc : B.winner
        · rfl
        · rw [hc] at hw; simp at hw
      have hs : step s input =
          some (GameOutcome.again { player_turn := s.player_turn.next, board := B }) := by
        simp [step, hp, hv, hpl, hwn]
      rw [hs] at hstep
      have hs' : s' = { player_turn := s.player_turn.next, board := B } :=
        (GameOutcome.again.inj (Option.some.inj hstep)).symm
      rw [hs']
      obtain ⟨ihm, ihc, ihn⟩ := ih
      refine ⟨?_, ?_, ?_⟩
      · intro mv' hmem
        rcases List.mem_append.mp hmem with hold | hnew
        · obtain ⟨k1, k2, hval, hne⟩ := ihm mv' hold
          refine ⟨k1, k2, ?_, hne⟩
          simp only [hBt]
          rw [if_neg]
          · exact hval
          · intro ⟨hi, hj⟩
            rw [hi, hj, hemp] at hval
            exact hne hval.symm
        · rw [List.mem_singleton.mp hnew]
          exact ⟨h1, h2, by simp [hBt], player_symbol_ne_empty s.player_turn⟩
      · intro i j hne
        simp only [hBt] at hne ⊢
        by_cases hc : i = ⟨mv.1, h1⟩ ∧ j = ⟨mv.2, h2⟩
        · rw [if_pos hc]
          apply List.mem_append.mpr
          right
          apply List.mem_singleton.mpr
          rw [hc.1, hc.2]
        · rw [if_neg hc] at hne ⊢
          exact List.mem_append.mpr (Or.inl (ihc i j hne))
      · rw [List.map_append, List.nodup_append]
        refine ⟨ihn, by simp, ?_⟩
        intro q hq hq2
        simp only [List.map_cons, List.map_nil, List.mem_singleton] at hq2
        obtain ⟨mv', hin, hfst⟩ := List.mem_map.mp hq
        obtain ⟨k1, k2, hval, hne⟩ := ihm mv' hin
        apply hne
        rw [← hval]
        have hqm : mv'.1 = mv := by rw [hfst, hq2]
        have hi : (⟨mv'.1.1, k1⟩ : Fin 3) = ⟨mv.1, h1⟩ :=
          Fin.ext (show mv'.1.1 = mv.1 by rw [hqm])
        have hj : (⟨mv'.1.2, k2⟩ : Fin 3) = ⟨mv.2, h2⟩ :=
          Fin.ext (show mv'.1.2 = mv.2 by rw [hqm])
        rw [hi, hj, hemp]

/-- The board carried by a loop outcome. -/
def outcome_board : GameOutcome → Board
  | GameOutcome.again s => s.board
  | GameOutcome.finished _ b => b

lemma step_preserves_nonempty (s : GameState) (input : List Char) (out : GameOutcome)
    (h : step s input = some out) (i j : Fin 3)
    (hne : s.board.tiles i j ≠ Symbol.Empty) :
    (outcome_board out).tiles i j = s.board.tiles i j := by
  rcases hp : parse_player_move input with e | mv
  · have hs : step s input = some (GameOutcome.again s) := by simp [step, hp]
    rw [hs] at h
    cases Option.some.inj h
    rfl
  · rcases hv : s.board.is_valid_move mv with _ | e | x
    · have hs : step s input = none := by simp [step, hp, hv]
      rw [hs] at h
      exact Option.noConfusion h
    · have hs : step s input = some (GameOutcome.again s) := by simp [step, hp, hv]
      rw [hs] at h
      cases Option.some.inj h
      rfl
    · obtain ⟨hx, hb1, hb2, hg⟩ := is_valid_move_ok_elim s.board mv x hv
      subst hx
      have h1 : mv.1 < 3 := by omega
      have h2 : mv.2 < 3 := by omega
      have hemp : s.board.tiles ⟨mv.1, h1⟩ ⟨mv.2, h2⟩ = Symbol.Empty := by
        rw [getTile_in_bounds _ _ _ h1 h2] at hg
        exact Option.some.inj hg
      obtain ⟨B, hpl, hBt⟩ : ∃ B : Board,
          s.board.place s.player_turn.symbol mv = some B ∧
          B.tiles = (fun i j =>
            if i = ⟨mv.1, h1⟩ ∧ j = ⟨mv.2, h2⟩ then s.player_turn.symbol
            else s.board.tiles i j) :=
        ⟨_, place_in_bounds s.board s.player_turn.symbol mv h1 h2, rfl⟩
      have hframe : B.tiles i j = s.board.tiles i j := by
        rw [hBt]
        simp only []
        rw [if_neg]
        intro ⟨hi, hj⟩
        exact hne (by rw [hi, hj]; exact hemp)
      by_cases hw : (B.winner).isSome = true
      · have hs : step s input = some (GameOutcome.finished s.player_turn B) := by
          simp [step, hp, hv, hpl, hw]
        rw [hs] at h
        cases Option.some.inj h
        exact hframe
      · have hwn : B.winner = none := by
          cases hc : B.winner
          · rfl
          · rw [hc] at hw; simp at hw
        have hs : step s input =
            some (GameOutcome.again { player_turn := s.player_turn.next, board := B }) := by
          simp [step, hp, hv, hpl, hwn]
        rw [hs] at h
        cases Option.some.inj h
        exact hframe

/-- C4: loop invariant — in every reachable state the set of non-Empty
cells on the board corresponds exactly to the accepted moves so far (each
accepted move's position holds the mark of the player who made it, and
positions never repeat), and one loop iteration never resets or
overwrites a non-Empty cell, whether it re-loops or finishes. -/
theorem C4_loop_invariant :
    (∀ (s : GameState) (ms : List ((Nat × Nat) × Symbol)),
      Trace s ms → board_matches_moves s.board ms) ∧
    (∀ (s : GameState) (input : List Char) (out : GameOutcome),
      step s input = some out →
      ∀ i j : Fin 3, s.board.tiles i j ≠ Symbol.Empty →
        (outcome_board out).tiles i j = s.board.tiles i j) :=
  ⟨trace_board_matches, step_preserves_nonempty⟩

/-- Witness for C4: the initial state's empty board matches the empty move
list, and a concrete rejected turn (occupied cell) leaves the non-Empty
cell (0,0) unchanged. -/
theorem C4_loop_invariant_witness :
    board_matches_moves Board.new [] ∧
    (outcome_board (GameOutcome.again ⟨Player.Two, b00_board⟩)).tiles 0 0 =
      b00_board.tiles 0 0 :=
  ⟨C4_loop_invariant.1 init_state [] Trace.init,
   C4_loop_invariant.2 ⟨Player.Two, b00_board⟩ ("0,0".toList)
     (GameOutcome.again ⟨Player.Two, b00_board⟩) rfl 0 0 (by decide)⟩

end TicTacToe
